import Mathlib

/-!
Verification of the bulk-load core of `ETL_coletar_dados_e_gravar_BD.py`
(victorbeppler/Dados-Publicos---Receita-Federal-Brasil-).

Shallow embedding: the pure control flow of the Python functions is
translated into Lean functions; database and filesystem effects are made
explicit (state records, boolean failure oracles for the calls that can
raise).  Rows are abstracted to an arbitrary type wherever their content
is irrelevant to the property being checked.
-/

set_option autoImplicit false

namespace ETL

universe u
variable {α : Type u}

/-! ### Windowed reading

The estabelecimento loop (source lines 1032-1079) reads windows with
`pd.read_csv(..., nrows=NROWS, skiprows=NROWS*part)` and `NROWS = 2000000`;
the simples loop (lines 1204-1224) does the same with
`tamanho_das_partes = 1000000`.  A successful window read yields the
slice `rows[N*part : N*part + N]` of the file's rows; but when
`skiprows` is at or past the file's row count there is nothing left to
parse and `pd.read_csv` raises `pandas.errors.EmptyDataError` instead
of returning an empty frame. -/

/-- The slice `rows[size*k : size*k + size]` (plain Python slicing:
empty past the end, never an error). -/
def sliceAt (rows : List α) (size k : Nat) : List α :=
  (rows.drop (size * k)).take size

/-- One window read: `pd.read_csv` with `nrows = N` and
`skiprows = N * part` returns the slice when at least one row remains
after the skip, and raises `EmptyDataError` when `skiprows` is at or
past end-of-file. -/
def readWindow (rows : List α) (N part : Nat) : Except String (List α) :=
  if rows.length ≤ N * part then
    .error "EmptyDataError: No columns to parse from file"
  else .ok (sliceAt rows N part)

/-- The number of windows the loop consumes before hitting the empty
window: the ceiling of `R / N`. -/
def numWindows (R N : Nat) : Nat :=
  (R + N - 1) / N

theorem numWindows_eq (R N : Nat) (hN : 0 < N) :
    numWindows R N = if R % N = 0 then R / N else R / N + 1 := by
  have hqd := Nat.div_add_mod R N
  have hd : R % N < N := Nat.mod_lt _ hN
  unfold numWindows
  by_cases h : R % N = 0
  · rw [if_pos h]
    have h1 : R + N - 1 = N * (R / N) + (N - 1) := by
      generalize N * (R / N) = A at hqd ⊢
      omega
    rw [h1, Nat.mul_add_div hN,
      Nat.div_eq_of_lt (show N - 1 < N by omega), Nat.add_zero]
  · rw [if_neg h]
    have h2 : N * (R / N + 1) = N * (R / N) + N := by ring
    have h1 : R + N - 1 = N * (R / N + 1) + (R % N - 1) := by
      generalize N * (R / N) = A at hqd h2
      generalize N * (R / N + 1) = B at h2 ⊢
      omega
    rw [h1, Nat.mul_add_div hN,
      Nat.div_eq_of_lt (show R % N - 1 < N by omega), Nat.add_zero]

theorem le_mul_numWindows (R N : Nat) (hN : 0 < N) :
    R ≤ N * numWindows R N := by
  rw [numWindows_eq R N hN]
  have hqd := Nat.div_add_mod R N
  have hd : R % N < N := Nat.mod_lt _ hN
  by_cases h : R % N = 0
  · rw [if_pos h]
    generalize N * (R / N) = A at hqd ⊢
    omega
  · rw [if_neg h]
    have h2 : N * (R / N + 1) = N * (R / N) + N := by ring
    generalize N * (R / N) = A at hqd h2
    generalize N * (R / N + 1) = B at h2 ⊢
    omega

/-- Concatenating the first `k` slices in window order yields the first
`N * k` rows of the file. -/
theorem join_windows (rows : List α) (N : Nat) :
    ∀ k, ((List.range k).map (fun i => sliceAt rows N i)).flatten
           = rows.take (N * k) := by
  intro k
  induction k with
  | zero => simp
  | succ k ih =>
    rw [List.range_succ, List.map_append, List.flatten_append]
    simp only [List.map_cons, List.map_nil, List.flatten_cons,
      List.flatten_nil, List.append_nil]
    rw [ih, sliceAt, Nat.mul_succ, List.take_add]

theorem mul_lt_of_lt_numWindows (R N k : Nat) (hN : 0 < N)
    (hk : k < numWindows R N) : N * k < R := by
  rw [numWindows_eq R N hN] at hk
  have hqd := Nat.div_add_mod R N
  have hd : R % N < N := Nat.mod_lt _ hN
  by_cases h : R % N = 0
  · rw [if_pos h] at hk
    have h1 : N * (k + 1) ≤ N * (R / N) := Nat.mul_le_mul_left N hk
    have h2 : N * (k + 1) = N * k + N := by ring
    generalize N * (k + 1) = B at h1 h2
    generalize N * (R / N) = Q at h1 hqd
    generalize N * k = A at h2 ⊢
    omega
  · rw [if_neg h] at hk
    have hk' : k ≤ R / N := by omega
    have h1 : N * k ≤ N * (R / N) := Nat.mul_le_mul_left N hk'
    generalize N * (R / N) = Q at h1 hqd
    generalize N * k = A at h1 ⊢
    omega

/-- C5 counterexample: for a file whose row count is an exact multiple
of the window size (here 4 rows, windows of 2), the read of the window
after end-of-file does not yield zero rows — `pd.read_csv` with
`skiprows = 4` raises `EmptyDataError`, so the `len == 0` break of the
window loops never fires and the loop terminates through the per-file
exception handler instead. -/
theorem window_after_eof_raises_cex :
    readWindow ([0, 1, 2, 3] : List Nat) 2 2
        = .error "EmptyDataError: No columns to parse from file"
    ∧ ∀ out : List Nat, readWindow ([0, 1, 2, 3] : List Nat) 2 2 ≠ .ok out := by
  refine ⟨rfl, ?_⟩
  intro out h
  rw [show readWindow ([0, 1, 2, 3] : List Nat) 2 2
      = .error "EmptyDataError: No columns to parse from file" from rfl] at h
  cases h

/-- C5 (amended): decoding a file of `R` rows in fixed windows of
ceiling `N` (`N = 2000000` for estabelecimento, `N = 1000000` for
simples) is complete over the successful reads: every window index
below `ceil(R / N)` reads successfully and the slices concatenated in
window order reproduce exactly the file's rows (no duplication, no
omission), with the last window holding `R mod N` rows, or `N` rows
when `N` divides `R`.  But a window requested at or past end-of-file
raises `EmptyDataError` rather than yielding zero rows — a successful
read is never empty — so the loops' `len == 0` breaks are unreachable
and, when `N` divides `R`, termination happens via the exception
reaching the per-file handler. -/
theorem windowing_complete (rows : List α) (N : Nat) (hN : 0 < N) :
    (∀ k < numWindows rows.length N,
        readWindow rows N k = .ok (sliceAt rows N k))
    ∧ (((List.range (numWindows rows.length N)).map
        (fun i => sliceAt rows N i)).flatten = rows)
    ∧ (∀ part, rows.length ≤ N * part →
        readWindow rows N part
          = .error "EmptyDataError: No columns to parse from file")
    ∧ (∀ part (out : List α), readWindow rows N part = .ok out → out ≠ [])
    ∧ (0 < rows.length →
        (sliceAt rows N (numWindows rows.length N - 1)).length =
          if rows.length % N = 0 then N else rows.length % N) := by
  refine ⟨?_, ?_, ?_, ?_, ?_⟩
  · intro k hk
    unfold readWindow
    rw [if_neg (by
      push_neg
      exact mul_lt_of_lt_numWindows rows.length N k hN hk)]
  · rw [join_windows]
    exact List.take_of_length_le (le_mul_numWindows _ _ hN)
  · intro part hpart
    unfold readWindow
    rw [if_pos hpart]
  · intro part out hout
    unfold readWindow at hout
    by_cases hpast : rows.length ≤ N * part
    · rw [if_pos hpast] at hout
      cases hout
    · rw [if_neg hpast] at hout
      cases hout
      intro hnil
      have hlen : (sliceAt rows N part).length = 0 := by
        rw [hnil]
        rfl
      rw [sliceAt, List.length_take, List.length_drop] at hlen
      omega
  · intro hR
    rw [sliceAt, List.length_take, List.length_drop,
      numWindows_eq _ _ hN]
    have hqd := Nat.div_add_mod rows.length N
    have hd : rows.length % N < N := Nat.mod_lt _ hN
    by_cases h : rows.length % N = 0
    · rw [if_pos h, if_pos h]
      have hNR : N ≤ rows.length := by
        by_contra hlt
        push_neg at hlt
        rw [Nat.mod_eq_of_lt hlt] at h
        omega
      have hq : 0 < rows.length / N := Nat.div_pos hNR hN
      obtain ⟨q', hq'⟩ := Nat.exists_eq_add_of_le hq
      rw [hq'] at hqd ⊢
      have h3 : N * (1 + q') = N + N * q' := by ring
      simp only [Nat.add_sub_cancel_left]
      generalize N * q' = C at h3 ⊢
      generalize N * (1 + q') = B at h3 hqd
      omega
    · rw [if_neg h, if_neg h]
      simp only [Nat.add_sub_cancel]
      generalize N * (rows.length / N) = A at hqd ⊢
      omega

theorem windowing_complete_witness :
    (0 : Nat) < 2
    ∧ ((∀ k < numWindows ([0, 1, 2, 3, 4] : List Nat).length 2,
          readWindow ([0, 1, 2, 3, 4] : List Nat) 2 k
            = .ok (sliceAt ([0, 1, 2, 3, 4] : List Nat) 2 k))
        ∧ (((List.range (numWindows ([0, 1, 2, 3, 4] : List Nat).length 2)).map
            (fun i => sliceAt ([0, 1, 2, 3, 4] : List Nat) 2 i)).flatten =
              [0, 1, 2, 3, 4])
        ∧ (∀ part, ([0, 1, 2, 3, 4] : List Nat).length ≤ 2 * part →
            readWindow ([0, 1, 2, 3, 4] : List Nat) 2 part
              = .error "EmptyDataError: No columns to parse from file")
        ∧ (∀ part (out : List Nat),
            readWindow ([0, 1, 2, 3, 4] : List Nat) 2 part = .ok out →
              out ≠ [])
        ∧ (0 < ([0, 1, 2, 3, 4] : List Nat).length →
            (sliceAt ([0, 1, 2, 3, 4] : List Nat) 2
                (numWindows ([0, 1, 2, 3, 4] : List Nat).length 2 - 1)).length =
              if ([0, 1, 2, 3, 4] : List Nat).length % 2 = 0 then 2
              else ([0, 1, 2, 3, 4] : List Nat).length % 2)) :=
  ⟨by decide, windowing_complete [0, 1, 2, 3, 4] 2 (by decide)⟩

/-! ### Freshness check (`check_diff`, source lines 35-53)

`check_diff(url, file_name)` returns `True` when the file must be
(re-)downloaded and `False` when the local copy is up to date.  The local
file is modelled by its size when present; the HEAD request by its
`content-length` header when the request succeeds (`requests.head`
raising is `none`; a missing header is defaulted to `0` by the code via
`response.headers.get('content-length', 0)`, here via `Option.getD`). -/

/-- Result of a successful `requests.head`: the optional
`content-length` header. -/
structure HeadResult where
  contentLength : Option Nat
deriving DecidableEq, Repr

/-- Outcome of `check_diff`: `needsDownload deleted` models `return True`
(with `deleted = true` exactly when `os.remove` ran first), `skip`
models `return False`. -/
inductive CheckDiffResult where
  | needsDownload (deleted : Bool)
  | skip
deriving DecidableEq, Repr

/-- `check_diff` (lines 35-53): missing local file returns `True`; a
failing HEAD request returns `True`; a size mismatch deletes the local
file and returns `True`; matching sizes return `False`. -/
def check_diff (localSize : Option Nat) (head : Option HeadResult) :
    CheckDiffResult :=
  match localSize with
  | none => .needsDownload false
  | some oldSize =>
    match head with
    | none => .needsDownload false
    | some r =>
      let newSize := r.contentLength.getD 0
      if newSize ≠ oldSize then .needsDownload true
      else .skip

/-- C8: when the HEAD request succeeds, `check_diff` reports skip exactly
when the local file exists and its size equals the remote
content-length; when the local file exists and the sizes differ, it
deletes the local file and reports needs-download. -/
theorem check_diff_skip_iff (localSize : Option Nat)
    (head : Option HeadResult) :
    (check_diff localSize head = .skip ↔
      ∃ oldSize r, localSize = some oldSize ∧ head = some r ∧
        r.contentLength.getD 0 = oldSize)
    ∧ (∀ oldSize r, localSize = some oldSize → head = some r →
        r.contentLength.getD 0 ≠ oldSize →
        check_diff localSize head = .needsDownload true) := by
  constructor
  · constructor
    · intro hskip
      match localSize, head with
      | none, _ => simp [check_diff] at hskip
      | some oldSize, none => simp [check_diff] at hskip
      | some oldSize, some r =>
        refine ⟨oldSize, r, rfl, rfl, ?_⟩
        by_contra hne
        simp [check_diff, hne] at hskip
    · rintro ⟨oldSize, r, rfl, rfl, heq⟩
      simp [check_diff, heq]
  · rintro oldSize r rfl rfl hne
    simp [check_diff, hne]

theorem check_diff_skip_iff_witness :
    (some 5 : Option Nat) = some 5
    ∧ (some (⟨some 7⟩ : HeadResult) : Option HeadResult) = some ⟨some 7⟩
    ∧ (HeadResult.contentLength ⟨some 7⟩).getD 0 ≠ 5
    ∧ check_diff (some 5) (some ⟨some 7⟩) = .needsDownload true :=
  ⟨rfl, rfl, by decide,
    (check_diff_skip_iff (some 5) (some ⟨some 7⟩)).2 5 ⟨some 7⟩ rfl rfl
      (by decide)⟩

/-! ### Bulk loader (`to_sql_optimized`, source lines 187-337)

Rows are abstracted to their identity; the database calls that can raise
(`dataframe.to_sql`, `cur.copy_expert`, `cur.executemany`,
`cur.execute`) are boolean failure oracles.  The durable table content
is tracked as a `PgState`: `committed` rows survive a rollback,
`pending` rows sit in the open transaction and are discarded by
`connection.rollback()`. -/

/-- The chunks produced by `for i in range(0, len(data), size)` with
`batch = data[i:i + size]` (plain list slicing, which cannot raise),
each paired with its start offset `i`. -/
def indexedChunks (rows : List α) (size : Nat) : List (Nat × List α) :=
  (List.range (numWindows rows.length size)).map
    (fun k => (size * k, sliceAt rows size k))

theorem sum_chunk_lengths (rows : List α) (size : Nat) (hs : 0 < size) :
    ((indexedChunks rows size).map (fun p => p.2.length)).sum
      = rows.length := by
  have h1 : (indexedChunks rows size).map (fun p => p.2.length)
      = ((List.range (numWindows rows.length size)).map
          (fun k => sliceAt rows size k)).map List.length := by
    simp [indexedChunks, List.map_map, Function.comp]
  rw [h1, ← List.length_flatten, join_windows,
    List.take_of_length_le (le_mul_numWindows _ _ hs)]

/-- Row-by-row recovery of a failed chunk on the SQLAlchemy engine path
(source lines 370-386): each `row_df.to_sql(con=engine)` runs in its
own transaction, so row failures are independent — a row whose insert
raises is recorded as a failed-row descriptor `(i + j, row)` and
skipped, any other row is inserted.  Returns
(rows inserted, failed-row descriptors). -/
def recoverRows (rowRaises : α → Bool) (i : Nat) :
    Nat → List α → List α × List (Nat × α)
  | _, [] => ([], [])
  | j, r :: rs =>
    let rest := recoverRows rowRaises i (j + 1) rs
    if rowRaises r then (rest.1, (i + j, r) :: rest.2)
    else (r :: rest.1, rest.2)

theorem recoverRows_conservation (f : α → Bool) (i : Nat) :
    ∀ (j : Nat) (b : List α),
      (recoverRows f i j b).1.length + (recoverRows f i j b).2.length
        = b.length := by
  intro j b
  induction b generalizing j with
  | nil => simp [recoverRows]
  | cons r rs ih =>
    cases hfr : f r <;>
      simp only [recoverRows, hfr, Bool.false_eq_true, if_false, if_true,
        List.length_cons] <;>
      have := ih (j + 1) <;> omega

/-- After a server-side error has aborted the open psycopg2
transaction, every further `cur.execute` raises
`InFailedSqlTransaction`, so each remaining row of the sub-batch is
recorded as a failed-row descriptor. -/
def abortedDescriptors (i : Nat) : Nat → List α → List (Nat × α)
  | _, [] => []
  | j, r :: rs => (i + j, r) :: abortedDescriptors i (j + 1) rs

/-- Row-by-row recovery of a failed sub-batch on the psycopg2 path
(source lines 300-312) under PostgreSQL transaction semantics: the
rows up to the first server-side error are inserted into the open
recovery transaction; the first error aborts that transaction and
every remaining `cur.execute` raises `InFailedSqlTransaction`, adding
one descriptor per remaining row.  Returns
(rows accepted into the transaction, failed-row descriptors). -/
def recoverRowsTx (rowRaises : α → Bool) (i : Nat) :
    Nat → List α → List α × List (Nat × α)
  | _, [] => ([], [])
  | j, r :: rs =>
    if rowRaises r then
      ([], (i + j, r) :: abortedDescriptors i (j + 1) rs)
    else
      let rest := recoverRowsTx rowRaises i (j + 1) rs
      (r :: rest.1, rest.2)

theorem abortedDescriptors_length (i : Nat) :
    ∀ (j : Nat) (rs : List α),
      (abortedDescriptors i j rs).length = rs.length := by
  intro j rs
  induction rs generalizing j with
  | nil => rfl
  | cons r rs ih => simp [abortedDescriptors, ih (j + 1)]

theorem recoverRowsTx_conservation (f : α → Bool) (i : Nat) :
    ∀ (j : Nat) (b : List α),
      (recoverRowsTx f i j b).1.length + (recoverRowsTx f i j b).2.length
        = b.length := by
  intro j b
  induction b generalizing j with
  | nil => simp [recoverRowsTx]
  | cons r rs ih =>
    cases hfr : f r <;>
      simp only [recoverRowsTx, hfr, Bool.false_eq_true, if_false, if_true,
        List.length_cons, List.length_nil, abortedDescriptors_length]
    · have := ih (j + 1)
      omega
    · omega

/-- Durable database content and session state: `committed` rows
survive a rollback, `pending` rows are in the open transaction, and
`aborted` records whether a server-side error has left the open
transaction in the failed state (in which every statement raises
`InFailedSqlTransaction` and `COMMIT` executes as `ROLLBACK`). -/
structure PgState (α : Type u) where
  committed : List α
  pending : List α
  aborted : Bool
deriving DecidableEq, Repr

/-- The running locals of the multi-row INSERT path:
`inserted_rows`, `failed_rows`, and the connection's transaction
state. -/
structure MultiAcc (α : Type u) where
  inserted : Nat
  failed : List (Nat × α)
  st : PgState α
deriving DecidableEq, Repr

/-- Failure oracle for the psycopg2 path: whether `cur.executemany`
raises on a given sub-batch, and whether `cur.execute` raises on a given
single row. -/
structure PgOracle (α : Type u) where
  batchFails : List α → Bool
  rowFails : α → Bool

/-- One iteration of the sub-batch loop of the multi-row INSERT path
(source lines 280-316).  `cur.executemany` raises either when the
oracle says so or — `InFailedSqlTransaction` — when a previous
sub-batch left the transaction aborted; then `connection.rollback()`
(line 298) clears the open transaction and the sub-batch is retried
row by row (lines 300-312).  When any retry succeeded
(`batch_inserted > 0`) the commit of line 315 runs: it durably commits
the recovered rows only when no retry raised; after a server-side
retry error the transaction is aborted and that commit executes as
`ROLLBACK`, discarding the recovered rows (while `inserted_rows` has
already counted them).  When no retry succeeded, no commit runs and an
aborted transaction is left open for the next sub-batch.  On
`executemany` success, `inserted_rows += len(batch)` and a commit is
issued only when `inserted_rows % commit_interval == 0`
(lines 287-291). -/
def processBatch (oc : PgOracle α) (ci : Nat) (i : Nat) (b : List α)
    (acc : MultiAcc α) : MultiAcc α :=
  if acc.st.aborted || oc.batchFails b then
    if 0 < (recoverRowsTx oc.rowFails i 0 b).1.length then
      if (recoverRowsTx oc.rowFails i 0 b).2.isEmpty then
        ⟨acc.inserted + (recoverRowsTx oc.rowFails i 0 b).1.length,
          acc.failed ++ (recoverRowsTx oc.rowFails i 0 b).2,
          ⟨acc.st.committed ++ (recoverRowsTx oc.rowFails i 0 b).1, [],
            false⟩⟩
      else
        ⟨acc.inserted + (recoverRowsTx oc.rowFails i 0 b).1.length,
          acc.failed ++ (recoverRowsTx oc.rowFails i 0 b).2,
          ⟨acc.st.committed, [], false⟩⟩
    else
      ⟨acc.inserted + (recoverRowsTx oc.rowFails i 0 b).1.length,
        acc.failed ++ (recoverRowsTx oc.rowFails i 0 b).2,
        ⟨acc.st.committed, [],
          !(recoverRowsTx oc.rowFails i 0 b).2.isEmpty⟩⟩
  else
    if (acc.inserted + b.length) % ci = 0 then
      ⟨acc.inserted + b.length, acc.failed,
        ⟨acc.st.committed ++ (acc.st.pending ++ b), [], false⟩⟩
    else
      ⟨acc.inserted + b.length, acc.failed,
        ⟨acc.st.committed, acc.st.pending ++ b, false⟩⟩

def runBatches (oc : PgOracle α) (ci : Nat) :
    List (Nat × List α) → MultiAcc α → MultiAcc α
  | [], acc => acc
  | (i, b) :: rest, acc => runBatches oc ci rest (processBatch oc ci i b acc)

/-- The psycopg2 multi-row INSERT path of `to_sql_optimized` (source
lines 268-335), including the final `connection.commit()` of line 319
— which durably commits the pending rows of a live transaction but
executes as `ROLLBACK` on an aborted one. -/
def toSqlMulti (oc : PgOracle α) (size ci : Nat) (rows : List α) :
    MultiAcc α :=
  let r := runBatches oc ci (indexedChunks rows size) ⟨0, [], ⟨[], [], false⟩⟩
  ⟨r.inserted, r.failed,
    ⟨if r.st.aborted then r.st.committed
      else r.st.committed ++ r.st.pending, [], false⟩⟩

theorem processBatch_conservation (oc : PgOracle α) (ci i : Nat)
    (b : List α) (acc : MultiAcc α) :
    (processBatch oc ci i b acc).inserted
      + (processBatch oc ci i b acc).failed.length
      = acc.inserted + acc.failed.length + b.length := by
  unfold processBatch
  cases hbf : acc.st.aborted || oc.batchFails b
  · simp only [hbf, Bool.false_eq_true, if_false]
    split <;> simp <;> omega
  · simp only [hbf, if_true]
    have h := recoverRowsTx_conservation oc.rowFails i 0 b
    split
    · split <;> simp [List.length_append] <;> omega
    · simp [List.length_append]
      omega

theorem runBatches_conservation (oc : PgOracle α) (ci : Nat) :
    ∀ (bs : List (Nat × List α)) (acc : MultiAcc α),
      (runBatches oc ci bs acc).inserted
        + (runBatches oc ci bs acc).failed.length
        = acc.inserted + acc.failed.length
          + (bs.map (fun p => p.2.length)).sum := by
  intro bs
  induction bs with
  | nil => intro acc; simp [runBatches]
  | cons p rest ih =>
    intro acc
    obtain ⟨i, b⟩ := p
    simp only [runBatches, List.map_cons, List.sum_cons]
    rw [ih]
    have := processBatch_conservation oc ci i b acc
    omega

theorem toSqlMulti_conservation (oc : PgOracle α) (size ci : Nat)
    (hs : 0 < size) (rows : List α) :
    (toSqlMulti oc size ci rows).inserted
      + (toSqlMulti oc size ci rows).failed.length = rows.length := by
  unfold toSqlMulti
  have h := runBatches_conservation oc ci (indexedChunks rows size)
    ⟨0, [], ⟨[], [], false⟩⟩
  rw [sum_chunk_lengths rows size hs] at h
  simpa using h

/-! ### `insert_with_error_handling` (source lines 339-400)

The engine-side safe loader: chunks of 1000 rows; a chunk whose
`to_sql` raises is retried row by row, each failing row recorded as a
descriptor `(index, row)`. -/

/-- Failure oracle for the SQLAlchemy path: whether `chunk.to_sql`
raises on a given chunk, and whether `row_df.to_sql` raises on a given
single row. -/
structure EngineOracle (α : Type u) where
  chunkFails : List α → Bool
  rowFails : α → Bool

def engineChunkStep (oc : EngineOracle α) (i : Nat) (c : List α)
    (acc : Nat × List (Nat × α)) : Nat × List (Nat × α) :=
  if oc.chunkFails c then
    (acc.1 + (recoverRows oc.rowFails i 0 c).1.length,
      acc.2 ++ (recoverRows oc.rowFails i 0 c).2)
  else (acc.1 + c.length, acc.2)

def runEngineChunks (oc : EngineOracle α) :
    List (Nat × List α) → Nat × List (Nat × α) → Nat × List (Nat × α)
  | [], acc => acc
  | (i, c) :: rest, acc => runEngineChunks oc rest (engineChunkStep oc i c acc)

/-- `insert_with_error_handling` (source lines 339-400): `chunk_size`
is the hard-coded 1000 of line 351. -/
def insert_with_error_handling (oc : EngineOracle α) (rows : List α) :
    Nat × List (Nat × α) :=
  runEngineChunks oc (indexedChunks rows 1000) (0, [])

theorem engineChunkStep_conservation (oc : EngineOracle α) (i : Nat)
    (c : List α) (acc : Nat × List (Nat × α)) :
    (engineChunkStep oc i c acc).1 + (engineChunkStep oc i c acc).2.length
      = acc.1 + acc.2.length + c.length := by
  unfold engineChunkStep
  have h := recoverRows_conservation oc.rowFails i 0 c
  cases hcf : oc.chunkFails c <;>
    simp only [hcf, Bool.false_eq_true, if_false, if_true,
      List.length_append] <;>
    omega

theorem runEngineChunks_conservation (oc : EngineOracle α) :
    ∀ (cs : List (Nat × List α)) (acc : Nat × List (Nat × α)),
      (runEngineChunks oc cs acc).1 + (runEngineChunks oc cs acc).2.length
        = acc.1 + acc.2.length + (cs.map (fun p => p.2.length)).sum := by
  intro cs
  induction cs with
  | nil => intro acc; simp [runEngineChunks]
  | cons p rest ih =>
    intro acc
    obtain ⟨i, c⟩ := p
    simp only [runEngineChunks, List.map_cons, List.sum_cons]
    rw [ih]
    have := engineChunkStep_conservation oc i c acc
    omega

theorem iweh_conservation (oc : EngineOracle α) (rows : List α) :
    (insert_with_error_handling oc rows).1
      + (insert_with_error_handling oc rows).2.length = rows.length := by
  unfold insert_with_error_handling
  have h := runEngineChunks_conservation oc (indexedChunks rows 1000) (0, [])
  rw [sum_chunk_lengths rows 1000 (by omega)] at h
  simpa using h

/-! ### `to_sql_optimized` top level (source lines 187-337) -/

/-- The insert method knob (`DB_INSERT_METHOD`, source line 645:
`'multi' para multi-insert, 'copy' para COPY FROM`). -/
inductive PgMethod where
  | multi
  | copy
deriving DecidableEq, Repr

/-- The two connection shapes `to_sql_optimized` distinguishes: a
SQLAlchemy engine (`hasattr(connection, 'connect')`, lines 207-235) or a
raw psycopg2 connection (`hasattr(connection, 'cursor')`, lines
238-335).  `sqlFails` is the failure oracle of the first
`dataframe.to_sql` (line 210), `fallbackFails` of the second (line 224),
`copyFails` of `cur.copy_expert` (line 255). -/
inductive Connection (α : Type u) where
  | engine (sqlFails fallbackFails : Bool) (oc : EngineOracle α)
  | pg (method : PgMethod) (copyFails : Bool) (oc : PgOracle α)

/-- What `to_sql_optimized` gives back to its caller: the returned
`inserted_rows` count, plus the failed-row descriptors it recorded
(`failed_rows` at lines 308-312 or `errors` at lines 383-386). -/
structure LoadResult (α : Type u) where
  inserted : Nat
  failed : List (Nat × α)

/-- `to_sql_optimized` (source lines 187-337).  Engine path: the
successful `to_sql` paths return `total_rows` (lines 210-231), the
double-failure path delegates to `insert_with_error_handling`
(line 235).  Psycopg2 path: a successful COPY returns `total_rows`
(lines 243-261), a failed COPY falls back to the multi-row INSERT path
(line 266), which is also the `'multi'` path (lines 268-335). -/
def to_sql_optimized (conn : Connection α) (size ci : Nat)
    (rows : List α) : LoadResult α :=
  match conn with
  | .engine sqlFails fallbackFails oc =>
    if sqlFails = false then ⟨rows.length, []⟩
    else if fallbackFails = false then ⟨rows.length, []⟩
    else
      let r := insert_with_error_handling oc rows
      ⟨r.1, r.2⟩
  | .pg method copyFails oc =>
    match method with
    | .copy =>
      if copyFails = false then ⟨rows.length, []⟩
      else
        let r := toSqlMulti oc size ci rows
        ⟨r.inserted, r.failed⟩
    | .multi =>
      let r := toSqlMulti oc size ci rows
      ⟨r.inserted, r.failed⟩

theorem to_sql_optimized_conservation (conn : Connection α) (size ci : Nat)
    (hs : 0 < size) (rows : List α) :
    (to_sql_optimized conn size ci rows).inserted
      + (to_sql_optimized conn size ci rows).failed.length
      = rows.length := by
  match conn with
  | .engine sqlFails fallbackFails oc =>
    cases sqlFails <;> cases fallbackFails <;>
      simp [to_sql_optimized, iweh_conservation]
  | .pg method copyFails oc =>
    cases method <;> cases copyFails <;>
      simp [to_sql_optimized, toSqlMulti_conservation _ _ _ hs]

/-- C1: every row handed to the bulk loader is accounted for: the
returned `rows_inserted` count plus the number of recorded failed-row
descriptors equals the number of rows attempted, on every path of
`to_sql_optimized` (SQLAlchemy engine with its
`insert_with_error_handling` fallback, and psycopg2 with either the
COPY or the multi-row INSERT method). -/
theorem loader_conservation (conn : Connection α) (size ci : Nat)
    (hs : 0 < size) (rows : List α) :
    (to_sql_optimized conn size ci rows).inserted
      + (to_sql_optimized conn size ci rows).failed.length
      = rows.length :=
  to_sql_optimized_conservation conn size ci hs rows

theorem loader_conservation_witness :
    (0 : Nat) < 2
    ∧ (to_sql_optimized
          (Connection.pg .multi false
            ⟨fun b => b.contains 2, fun r => decide (r = 2)⟩)
          2 100 [0, 1, 2, 3]).inserted
        + (to_sql_optimized
            (Connection.pg .multi false
              ⟨fun b => b.contains 2, fun r => decide (r = 2)⟩)
            2 100 [0, 1, 2, 3]).failed.length
        = ([0, 1, 2, 3] : List Nat).length :=
  ⟨by decide,
    loader_conservation
      (Connection.pg .multi false
        ⟨fun b => b.contains 2, fun r => decide (r = 2)⟩)
      2 100 (by decide) [0, 1, 2, 3]⟩

/-! ### Rollback scope of the multi-row INSERT path (claim C2) -/

/-- C2 counterexample: sub-batch size 2, commit interval 100, rows
`[0, 1, 2, 3]`, an oracle whose `executemany` raises exactly on a
sub-batch containing row `2`, every individual retry succeeding.  The
first sub-batch `[0, 1]` succeeds (`batchFails [0, 1] = false`) and is
counted in `inserted_rows`, but no commit is issued (2 is not a
multiple of 100), so the `connection.rollback()` triggered by the
second sub-batch discards it; the retries of `[2, 3]` all succeed, so
their commit is genuine, and the final durable table content is
`[2, 3]` — the rows of the previously succeeded sub-batch ARE undone,
while the returned count still reports all 4 rows as inserted. -/
theorem rollback_loses_uncommitted_batches_cex :
    ((⟨fun b => b.contains 2, fun _ => false⟩ : PgOracle Nat).batchFails
        [0, 1] = false)
    ∧ (toSqlMulti (⟨fun b => b.contains 2, fun _ => false⟩ : PgOracle Nat)
        2 100 [0, 1, 2, 3]).st.committed = [2, 3]
    ∧ (toSqlMulti (⟨fun b => b.contains 2, fun _ => false⟩ : PgOracle Nat)
        2 100 [0, 1, 2, 3]).inserted = 4 := by
  refine ⟨rfl, ?_, ?_⟩ <;> rfl

/-- C2 (amended): on a sub-batch failure, `connection.rollback()`
discards the entire open transaction — the failed sub-batch and every
previously succeeded sub-batch since the last commit; the failed
sub-batch's rows are then retried one at a time, but under PostgreSQL
transaction semantics the retried rows become durable only when every
retry succeeded: the first server-side retry error aborts the recovery
transaction (later retries raise `InFailedSqlTransaction`) and the
commit of line 315 then executes as `ROLLBACK`, so after a failed
sub-batch the surviving database content is the previously committed
rows, plus the individually recovered rows exactly when the recovery
was clean and non-empty.  Commits are issued only when the cumulative
inserted count is an exact multiple of the commit interval, not after
every sub-batch. -/
theorem rollback_discards_transaction (oc : PgOracle α) (ci i : Nat)
    (b : List α) (acc : MultiAcc α) :
    ((acc.st.aborted || oc.batchFails b) = true →
      (processBatch oc ci i b acc).st.committed
          ++ (processBatch oc ci i b acc).st.pending
        = (if (recoverRowsTx oc.rowFails i 0 b).2.isEmpty = true
              ∧ 0 < (recoverRowsTx oc.rowFails i 0 b).1.length then
            acc.st.committed ++ (recoverRowsTx oc.rowFails i 0 b).1
          else acc.st.committed))
    ∧ ((acc.st.aborted || oc.batchFails b) = false →
        (acc.inserted + b.length) % ci ≠ 0 →
        (processBatch oc ci i b acc).st.committed = acc.st.committed
        ∧ (processBatch oc ci i b acc).st.pending = acc.st.pending ++ b) := by
  constructor
  · intro hbf
    unfold processBatch
    simp only [hbf, if_true]
    by_cases h1 : 0 < (recoverRowsTx oc.rowFails i 0 b).1.length
    · by_cases h2 : (recoverRowsTx oc.rowFails i 0 b).2.isEmpty = true
      · rw [if_pos h1, if_pos h2, if_pos ⟨h2, h1⟩]
        simp
      · rw [if_pos h1, if_neg h2, if_neg (fun hc => h2 hc.1)]
        simp
    · rw [if_neg h1, if_neg (fun hc => h1 hc.2)]
      simp
  · intro hbf hci
    unfold processBatch
    simp [hbf, hci]

theorem rollback_discards_transaction_witness :
    ((false : Bool)
        || (⟨fun b => b.contains 2, fun _ => false⟩ : PgOracle Nat).batchFails
            [2, 3]) = true
    ∧ (processBatch (⟨fun b => b.contains 2, fun _ => false⟩ : PgOracle Nat)
          100 2 [2, 3] ⟨2, [], ⟨[], [0, 1], false⟩⟩).st.committed
        ++ (processBatch
            (⟨fun b => b.contains 2, fun _ => false⟩ : PgOracle Nat)
            100 2 [2, 3] ⟨2, [], ⟨[], [0, 1], false⟩⟩).st.pending
      = [2, 3] :=
  ⟨rfl,
    (rollback_discards_transaction
      (⟨fun b => b.contains 2, fun _ => false⟩ : PgOracle Nat)
      100 2 [2, 3] ⟨2, [], ⟨[], [0, 1], false⟩⟩).1 rfl⟩

/-! ### Parallel loader (`parallel_insert`, source lines 402-453)

`np.array_split(dataframe, num_workers)` partitions the batch into
`num_workers` contiguous sections: with `l = len(dataframe)` and
`n = num_workers`, the first `l % n` sections have `l / n + 1` rows and
the remaining sections `l / n` rows.  Each worker runs `insert_chunk`
on its own section. -/

/-- Section sizes of `np.array_split`. -/
def sectionSizes (l n : Nat) : List Nat :=
  (List.range n).map (fun i => l / n + if i < l % n then 1 else 0)

def splitBySizes : List Nat → List α → List (List α)
  | [], _ => []
  | s :: rest, rows => rows.take s :: splitBySizes rest (rows.drop s)

def array_split (rows : List α) (n : Nat) : List (List α) :=
  splitBySizes (sectionSizes rows.length n) rows

theorem flatten_splitBySizes (sizes : List Nat) :
    ∀ rows : List α,
      (splitBySizes sizes rows).flatten = rows.take sizes.sum := by
  induction sizes with
  | nil => intro rows; simp [splitBySizes]
  | cons s rest ih =>
    intro rows
    simp only [splitBySizes, List.flatten_cons, List.sum_cons, ih,
      List.take_add]

/-- `insert_chunk` (source lines 419-439): an empty chunk contributes 0
before any database call; a chunk whose `to_sql` raises is caught by
the bare `except`, contributes 0 and records nothing; a successful
chunk contributes its length.  The second component is the list of
failed-row descriptors the worker records — the code has no such
mechanism, so it is empty on every branch. -/
def insert_chunk (chunkFails : List α → Bool) (c : List α) :
    Nat × List (Nat × α) :=
  if c.length = 0 then (0, [])
  else if chunkFails c then (0, [])
  else (c.length, [])

/-- `parallel_insert` (source lines 402-453): the returned total is the
sum of the workers' results. -/
def parallel_insert (chunkFails : List α → Bool) (rows : List α)
    (n : Nat) : Nat × List (Nat × α) :=
  (((array_split rows n).map (insert_chunk chunkFails)).map Prod.fst |>.sum,
    ((array_split rows n).map (insert_chunk chunkFails)).map Prod.snd
      |>.flatten)

theorem insert_chunk_fst_le (chunkFails : List α → Bool) (c : List α) :
    (insert_chunk chunkFails c).1 ≤ c.length := by
  unfold insert_chunk
  split
  · omega
  · split <;> omega

theorem sum_lengths_array_split (rows : List α) (n : Nat) :
    ((array_split rows n).map List.length).sum ≤ rows.length := by
  rw [← List.length_flatten]
  unfold array_split
  rw [flatten_splitBySizes]
  simp [List.length_take_le]

theorem parallel_insert_fst_le (chunkFails : List α → Bool)
    (rows : List α) (n : Nat) :
    (parallel_insert chunkFails rows n).1 ≤ rows.length := by
  unfold parallel_insert
  have h1 : (((array_split rows n).map (insert_chunk chunkFails)).map
        Prod.fst).sum
      ≤ ((array_split rows n).map List.length).sum := by
    rw [List.map_map]
    exact List.sum_le_sum (fun c _ => insert_chunk_fst_le chunkFails c)
  exact le_trans h1 (sum_lengths_array_split rows n)

/-- C9: on every load path — `to_sql_optimized` over either connection
shape and method, the row-by-row safe loader
`insert_with_error_handling`, and the parallel loader
`parallel_insert` — the inserted-rows count returned to the caller is
at most the number of rows attempted. -/
theorem rows_inserted_le_attempted (conn : Connection α) (size ci n : Nat)
    (hs : 0 < size) (rows : List α) (ocE : EngineOracle α)
    (chunkFails : List α → Bool) :
    (to_sql_optimized conn size ci rows).inserted ≤ rows.length
    ∧ (insert_with_error_handling ocE rows).1 ≤ rows.length
    ∧ (parallel_insert chunkFails rows n).1 ≤ rows.length := by
  refine ⟨?_, ?_, parallel_insert_fst_le chunkFails rows n⟩
  · have h := to_sql_optimized_conservation conn size ci hs rows
    omega
  · have h := iweh_conservation ocE rows
    omega

theorem rows_inserted_le_attempted_witness :
    (0 : Nat) < 2
    ∧ ((to_sql_optimized
          (Connection.pg .multi false
            ⟨fun b => b.contains 2, fun r => decide (r = 2)⟩)
          2 100 [0, 1, 2, 3]).inserted ≤ ([0, 1, 2, 3] : List Nat).length
        ∧ (insert_with_error_handling
            (⟨fun c => c.contains 2, fun r => decide (r = 2)⟩ :
              EngineOracle Nat) [0, 1, 2, 3]).1
          ≤ ([0, 1, 2, 3] : List Nat).length
        ∧ (parallel_insert (fun c => c.contains 2) [0, 1, 2, 3] 2).1
          ≤ ([0, 1, 2, 3] : List Nat).length) :=
  ⟨by decide,
    rows_inserted_le_attempted
      (Connection.pg .multi false
        ⟨fun b => b.contains 2, fun r => decide (r = 2)⟩)
      2 100 2 (by decide) [0, 1, 2, 3]
      ⟨fun c => c.contains 2, fun r => decide (r = 2)⟩
      (fun c => c.contains 2)⟩

theorem sum_fst_le_lengths (chunkFails : List α → Bool)
    (cs : List (List α)) :
    ((cs.map (insert_chunk chunkFails)).map Prod.fst).sum
      ≤ (cs.map List.length).sum := by
  rw [List.map_map]
  exact List.sum_le_sum (fun c _ => insert_chunk_fst_le chunkFails c)

theorem parallel_insert_snd_nil (chunkFails : List α → Bool)
    (rows : List α) (n : Nat) :
    (parallel_insert chunkFails rows n).2 = [] := by
  unfold parallel_insert
  have hsnd : ∀ c : List α, (insert_chunk chunkFails c).2 = [] := by
    intro c
    unfold insert_chunk
    split
    · rfl
    · split <;> rfl
  generalize array_split rows n = cs
  induction cs with
  | nil => simp
  | cons c cs ih => simp [hsnd, ih]

/-- C10: in `parallel_insert`, a worker whose whole chunk insert raises
contributes 0 to the returned total and records no failed-row
descriptor for any row of the chunk (the function has no
failure-recording mechanism at all), so the returned count undercounts
the batch by the entire partition with no per-row accounting available
to the caller. -/
theorem parallel_insert_silent_chunk_loss (chunkFails : List α → Bool)
    (rows : List α) (n : Nat) (c : List α)
    (hc : c ∈ array_split rows n) (hf : chunkFails c = true) :
    (parallel_insert chunkFails rows n).2 = []
    ∧ (parallel_insert chunkFails rows n).1 + c.length ≤ rows.length := by
  refine ⟨parallel_insert_snd_nil chunkFails rows n, ?_⟩
  obtain ⟨s, t, hst⟩ := List.append_of_mem hc
  have hsum := sum_lengths_array_split rows n
  unfold parallel_insert
  rw [hst] at hsum ⊢
  simp only [List.map_append, List.map_cons, List.sum_append,
    List.sum_cons] at hsum ⊢
  have hc0 : (insert_chunk chunkFails c).1 = 0 := by
    unfold insert_chunk
    by_cases h0 : c.length = 0
    · simp [h0]
    · simp [h0, hf]
  have h1 := sum_fst_le_lengths chunkFails s
  have h2 := sum_fst_le_lengths chunkFails t
  omega

theorem parallel_insert_silent_chunk_loss_witness :
    ([2, 3] ∈ array_split ([0, 1, 2, 3] : List Nat) 2)
    ∧ ((fun c : List Nat => c.contains 2) [2, 3] = true)
    ∧ ((parallel_insert (fun c : List Nat => c.contains 2)
          [0, 1, 2, 3] 2).2 = []
        ∧ (parallel_insert (fun c : List Nat => c.contains 2)
            [0, 1, 2, 3] 2).1 + ([2, 3] : List Nat).length
          ≤ ([0, 1, 2, 3] : List Nat).length) :=
  ⟨by decide, by decide,
    parallel_insert_silent_chunk_loss (fun c => c.contains 2)
      [0, 1, 2, 3] 2 [2, 3] (by decide) (by decide)⟩
/-! ### Empresa file decoding (source lines 929-980)

`pd.read_csv` is called once per file with
`dtype = {0: object, 1: object, 2: Int32, 3: Int32, 4: object,
5: Int32, 6: object}`.  A raw cell is `Option String` (`none` is an
empty field, which pandas reads as NA).  Column conversion to a
nullable integer type raises `ValueError` for the whole call when any
cell of the column is a non-numeric string; a row with more fields than
the declared seven raises `ParserError` for the whole call (the default
`on_bad_lines` behaviour); a row with fewer fields is NA-padded.
Afterwards (lines 961-962) `capital_social` is normalised by
`x.replace(',', '.')` — raising `AttributeError` on the whole column
when a cell is NA (a float) — and `astype(float)` — raising
`ValueError` when the normalised string is not a float literal.  All of
these surface as one exception caught by the per-file handler
(lines 978-980). -/

/-- Decoded empresa record (the column names of source lines
956-958). -/
structure EmpresaRow where
  cnpj_basico : Option String
  razao_social : Option String
  natureza_juridica : Option Int
  qualificacao_responsavel : Option Int
  capital_social : Option String
  porte_empresa : Option Int
  ente_federativo_responsavel : Option String
deriving DecidableEq, Repr

def parseNatDigitsAux : List Char → Nat → Option Nat
  | [], acc => some acc
  | c :: cs, acc =>
    if c.isDigit then parseNatDigitsAux cs (acc * 10 + (c.toNat - 48))
    else none

def parseNatDigits (l : List Char) : Option Nat :=
  match l with
  | [] => none
  | _ => parseNatDigitsAux l 0

/-- Integer-string acceptance of the pandas nullable-integer
conversion: an optional minus sign followed by decimal digits. -/
def strToIntModel (s : String) : Option Int :=
  match s.data with
  | '-' :: rest => (parseNatDigits rest).map (fun n => -(n : Int))
  | l => (parseNatDigits l).map (fun n => (n : Int))

/-- Conversion of one raw cell under a pandas nullable `Int32` dtype:
an empty cell is NA, a numeric string converts, anything else raises
`ValueError`. -/
def parseInt32 (cell : Option String) : Except String (Option Int) :=
  match cell with
  | none => .ok none
  | some s =>
    match strToIntModel s with
    | some v => .ok (some v)
    | none => .error ("ValueError: cannot convert " ++ s ++ " to Int32")

/-- Decode one raw line under the empresa dtype map.  Over-long rows
raise; short rows are NA-padded (`List.getD` with default `none`). -/
def readEmpresaRow (raw : List (Option String)) : Except String EmpresaRow :=
  if 7 < raw.length then .error "ParserError: expected 7 fields"
  else
    match parseInt32 (raw.getD 2 none), parseInt32 (raw.getD 3 none),
        parseInt32 (raw.getD 5 none) with
    | .ok nj, .ok qr, .ok pe =>
      .ok ⟨raw.getD 0 none, raw.getD 1 none, nj, qr, raw.getD 4 none,
        pe, raw.getD 6 none⟩
    | .error e, _, _ => .error e
    | _, .error e, _ => .error e
    | _, _, .error e => .error e

/-- `x.replace(',', '.')` on a one-character separator. -/
def commaToDot (s : String) : String :=
  String.mk (s.data.map (fun c => if c == ',' then '.' else c))

/-- Acceptance of `astype(float)` on a string cell: an optional sign,
then digits with at most one dot and at least one digit. -/
def floatLitOk (s : String) : Bool :=
  let body := match s.data with
    | c :: rest => if c == '-' || c == '+' then rest else s.data
    | [] => s.data
  body.all (fun c => c.isDigit || c == '.')
    && (body.filter (fun c => c == '.')).length ≤ 1
    && 0 < (body.filter Char.isDigit).length

/-- The `capital_social` normalisation of source lines 961-962: NA
cells raise `AttributeError` (a float has no `.replace`), then the
comma-decimal string is converted to a dot-decimal float. -/
def normalizeCapital (r : EmpresaRow) : Except String EmpresaRow :=
  match r.capital_social with
  | none => .error "AttributeError: float object has no attribute replace"
  | some s =>
    if floatLitOk (commaToDot s) then
      .ok { r with capital_social := some (commaToDot s) }
    else .error "ValueError: could not convert string to float"

/-- Vectorised application: pandas applies the conversion to the whole
column, and the first failing cell aborts the whole call. -/
def mapE {β : Type u} {γ : Type u} (f : β → Except String γ) :
    List β → Except String (List γ)
  | [] => .ok []
  | x :: xs =>
    match f x with
    | .error e => .error e
    | .ok y =>
      match mapE f xs with
      | .error e => .error e
      | .ok ys => .ok (y :: ys)

/-- The whole per-file empresa decode (source lines 942-962):
`pd.read_csv` with the dtype map, then the `capital_social`
normalisation. -/
def processEmpresaFile (rows : List (List (Option String))) :
    Except String (List EmpresaRow) :=
  match mapE readEmpresaRow rows with
  | .error e => .error e
  | .ok df => mapE normalizeCapital df

def exceptOk {β γ : Type u} : Except β γ → Bool
  | .ok _ => true
  | .error _ => false

/-- Whether one raw row passes both the dtype conversion and the
`capital_social` normalisation. -/
def rowDecodes (raw : List (Option String)) : Bool :=
  match readEmpresaRow raw with
  | .error _ => false
  | .ok er => exceptOk (normalizeCapital er)

theorem mapE_error_of_mem {β γ : Type u} (f : β → Except String γ) :
    ∀ (l : List β) (x : β), x ∈ l → (∀ y, f x ≠ .ok y) →
      ∃ e, mapE f l = .error e := by
  intro l
  induction l with
  | nil => intro x hx; cases hx
  | cons z zs ih =>
    intro x hx hfail
    rcases List.mem_cons.mp hx with h | h
    · subst h
      cases hz : f x with
      | error e => exact ⟨e, by simp [mapE, hz]⟩
      | ok y => exact absurd hz (hfail y)
    · cases hz : f z with
      | error e => exact ⟨e, by simp [mapE, hz]⟩
      | ok y =>
        obtain ⟨e, he⟩ := ih x h hfail
        exact ⟨e, by simp [mapE, hz, he]⟩

theorem mapE_ok_of_all {β γ : Type u} (f : β → Except String γ) :
    ∀ l : List β, (∀ x ∈ l, ∃ y, f x = .ok y) →
      ∃ out, mapE f l = .ok out ∧ out.length = l.length := by
  intro l
  induction l with
  | nil => intro _; exact ⟨[], rfl, rfl⟩
  | cons z zs ih =>
    intro hall
    obtain ⟨y, hy⟩ := hall z (List.mem_cons_self z zs)
    obtain ⟨out, hout, hlen⟩ :=
      ih (fun x hx => hall x (List.mem_cons_of_mem z hx))
    exact ⟨y :: out, by simp [mapE, hy, hout], by simp [hlen]⟩

theorem mapE_ok_mem {β γ : Type u} (f : β → Except String γ) :
    ∀ (l : List β) (out : List γ), mapE f l = .ok out →
      ∀ x ∈ l, ∃ y ∈ out, f x = .ok y := by
  intro l
  induction l with
  | nil => intro out _ x hx; cases hx
  | cons z zs ih =>
    intro out h x hx
    simp only [mapE] at h
    cases hz : f z with
    | error e => rw [hz] at h; cases h
    | ok y =>
      rw [hz] at h
      cases hrest : mapE f zs with
      | error e => rw [hrest] at h; cases h
      | ok ys =>
        rw [hrest] at h
        cases h
        rcases List.mem_cons.mp hx with hh | hh
        · subst hh
          exact ⟨y, List.mem_cons_self y ys, hz⟩
        · obtain ⟨w, hw, hfw⟩ := ih ys hrest x hh
          exact ⟨w, List.mem_cons_of_mem y hw, hfw⟩

theorem mapE_ok_mem_rev {β γ : Type u} (f : β → Except String γ) :
    ∀ (l : List β) (out : List γ), mapE f l = .ok out →
      ∀ y ∈ out, ∃ x ∈ l, f x = .ok y := by
  intro l
  induction l with
  | nil =>
    intro out h y hy
    simp only [mapE] at h
    cases h
    cases hy
  | cons z zs ih =>
    intro out h y hy
    simp only [mapE] at h
    cases hz : f z with
    | error e => rw [hz] at h; cases h
    | ok w =>
      rw [hz] at h
      cases hrest : mapE f zs with
      | error e => rw [hrest] at h; cases h
      | ok ys =>
        rw [hrest] at h
        cases h
        rcases List.mem_cons.mp hy with hh | hh
        · subst hh
          exact ⟨z, List.mem_cons_self z zs, hz⟩
        · obtain ⟨x, hx, hfx⟩ := ih ys hrest y hh
          exact ⟨x, List.mem_cons_of_mem z hx, hfx⟩

/-- A well-formed empresa row used in the concrete instances. -/
def goodRaw : List (Option String) :=
  [some "11111111", some "ACME", some "2062", some "50",
    some "1000,00", some "05", none]

/-- A row with a non-numeric string in the `Int32`-typed column 2. -/
def badRaw : List (Option String) :=
  [some "22222222", some "BETA", some "XX", some "50",
    some "1,00", some "05", none]

/-- C3 counterexample: in a two-row empresa file whose second row
carries a non-numeric value in an integer-typed column, the decode
fails as a whole — `pd.read_csv` raises for the entire call and no
rows (not even the well-formed first row) are produced, contradicting
the per-row-skip claim; the first row alone decodes fine. -/
theorem single_bad_row_aborts_empresa_file_cex :
    processEmpresaFile [goodRaw, badRaw]
        = .error "ValueError: cannot convert XX to Int32"
    ∧ (∃ out, processEmpresaFile [goodRaw] = .ok out ∧ out.length = 1) := by
  constructor
  · rfl
  · exact ⟨_, rfl, rfl⟩

/-- C3 (amended): a decoding failure on any single row of an empresa
file (over-long arity, unparsable integer cell, or a null/unparsable
monetary cell) aborts the decode of the whole file — the exception is
caught by the per-file handler, which records it and skips to the next
file; no per-row skipping exists.  Only a file in which every row
converts decodes, and then all of its rows are produced. -/
theorem empresa_decode_all_or_nothing (rows : List (List (Option String))) :
    ((∃ r ∈ rows, rowDecodes r = false) →
      ∃ e, processEmpresaFile rows = .error e)
    ∧ ((∀ r ∈ rows, rowDecodes r = true) →
      ∃ out, processEmpresaFile rows = .ok out
        ∧ out.length = rows.length) := by
  constructor
  · rintro ⟨r, hr, hbad⟩
    cases hread : readEmpresaRow r with
    | error e =>
      obtain ⟨e', he'⟩ := mapE_error_of_mem readEmpresaRow rows r hr
        (fun y hy => by rw [hread] at hy; cases hy)
      exact ⟨e', by unfold processEmpresaFile; rw [he']⟩
    | ok er =>
      have hbad' : exceptOk (normalizeCapital er) = false := by
        unfold rowDecodes at hbad
        rw [hread] at hbad
        exact hbad
      have hnofix : ∀ w, normalizeCapital er ≠ Except.ok w := by
        intro w hw
        rw [hw] at hbad'
        exact Bool.noConfusion hbad'
      cases hdf : mapE readEmpresaRow rows with
      | error e' => exact ⟨e', by unfold processEmpresaFile; rw [hdf]⟩
      | ok df =>
        obtain ⟨y, hy, hfy⟩ := mapE_ok_mem readEmpresaRow rows df hdf r hr
        rw [hread] at hfy
        cases hfy
        obtain ⟨e', he'⟩ := mapE_error_of_mem normalizeCapital df er hy hnofix
        refine ⟨e', ?_⟩
        unfold processEmpresaFile
        rw [hdf]
        exact he'
  · intro hall
    have hreads : ∀ r ∈ rows, ∃ y, readEmpresaRow r = .ok y := by
      intro r hr
      have hrd := hall r hr
      unfold rowDecodes at hrd
      cases hread : readEmpresaRow r with
      | error e =>
        rw [hread] at hrd
        exact Bool.noConfusion hrd
      | ok er => exact ⟨er, rfl⟩
    obtain ⟨df, hdf, hdflen⟩ := mapE_ok_of_all readEmpresaRow rows hreads
    have hnorms : ∀ y ∈ df, ∃ w, normalizeCapital y = .ok w := by
      intro y hy
      obtain ⟨r, hr, hfr⟩ := mapE_ok_mem_rev readEmpresaRow rows df hdf y hy
      have hrd := hall r hr
      unfold rowDecodes at hrd
      rw [hfr] at hrd
      have hrd' : exceptOk (normalizeCapital y) = true := hrd
      cases hnorm : normalizeCapital y with
      | error e =>
        rw [hnorm] at hrd'
        exact Bool.noConfusion hrd'
      | ok w => exact ⟨w, rfl⟩
    obtain ⟨out, hout, houtlen⟩ := mapE_ok_of_all normalizeCapital df hnorms
    refine ⟨out, ?_, by omega⟩
    unfold processEmpresaFile
    rw [hdf]
    exact hout

theorem empresa_decode_all_or_nothing_witness :
    (∃ r ∈ [goodRaw, badRaw], rowDecodes r = false)
    ∧ (∃ e, processEmpresaFile [goodRaw, badRaw] = .error e) :=
  ⟨⟨badRaw, by simp, rfl⟩,
    (empresa_decode_all_or_nothing [goodRaw, badRaw]).1
      ⟨badRaw, by simp, rfl⟩⟩

/-! ### `reconnect_database` (source lines 455-495)

In CPython a name assigned anywhere in a function body is local to the
entire body.  `reconnect_database` assigns `engine` (line 471), `conn`
(line 481) and `cur` (line 488), so the references `cur.close()`,
`conn.close()`, `engine.dispose()` at lines 462-464 resolve to the
still-unbound locals — not to the module-level handles — and raise
`UnboundLocalError` before any close effect; the bare `except: pass`
(lines 465-466) swallows it, so the module-level handles are never
closed. -/

/-- Names assigned somewhere in the body of `reconnect_database`
(lines 469, 470, 471, 481, 488), hence local to the whole body. -/
def reconnectLocalNames : List String :=
  ["encoded_password", "connection_string", "engine", "conn", "cur"]

/-- World state around a call to `reconnect_database`: whether the
previously current module-level engine/conn/cur handles are open, and
whether the database is reachable. -/
structure ReconnectWorld where
  oldHandlesOpen : Bool
  dbReachable : Bool
deriving DecidableEq, Repr

/-- The `try: cur.close(); conn.close(); engine.dispose()` block of
lines 461-466.  The first statement references `cur`; since `cur` is
assigned later in the function body it resolves in the local scope,
where it is still unbound, so an `UnboundLocalError` aborts the block
before any close effect and the bare `except` swallows it.  Only if the
names were not local would the module-level handles be closed. -/
def closeOldHandles (w : ReconnectWorld) : ReconnectWorld :=
  if "cur" ∈ reconnectLocalNames then w
  else { w with oldHandlesOpen := false }

/-- `reconnect_database` (lines 455-495): run the close block, then
open fresh handles; the first component is `true` when a fresh handle
triple is returned and `false` for the failure triple
`(None, None, None)` of line 495. -/
def reconnect_database (w : ReconnectWorld) : Bool × ReconnectWorld :=
  if (closeOldHandles w).dbReachable then (true, closeOldHandles w)
  else (false, closeOldHandles w)

/-- C4 (evaluation of the code at the failing input): `cur` IS local to
`reconnect_database`, so for every initial state the close block is a
no-op — the previous handles stay exactly as open as they were.  In
particular a call with live old handles and a reachable database
returns fresh handles while the old ones remain open alongside them,
contradicting the claim (and the code's own comment at line 460) that
existing handles are closed first; an unreachable database returns the
failure triple, old handles still open. -/
theorem reconnect_never_closes_old_handles :
    ("cur" ∈ reconnectLocalNames)
    ∧ (∀ w : ReconnectWorld,
        (reconnect_database w).2.oldHandlesOpen = w.oldHandlesOpen)
    ∧ (reconnect_database ⟨true, true⟩).1 = true
    ∧ (reconnect_database ⟨true, true⟩).2.oldHandlesOpen = true
    ∧ (reconnect_database ⟨true, false⟩).1 = false
    ∧ (reconnect_database ⟨true, false⟩).2.oldHandlesOpen = true := by
  refine ⟨by decide, ?_, rfl, rfl, rfl, rfl⟩
  intro w
  have hclose : closeOldHandles w = w := by
    unfold closeOldHandles
    rw [if_pos (by decide)]
  unfold reconnect_database
  rw [hclose]
  by_cases hdb : w.dbReachable = true
  · rw [if_pos hdb]
  · rw [if_neg hdb]

/-! ### The simples loading loop (source lines 1196-1264)

Line 1236 calls `clean_dataframe_for_insert(simples, 'simples')`.  The
module defines no function of that name: its top-level `def` statements
are the twelve listed below (lines 29, 35, 55, 95, 161, 168, 187, 339,
402, 455, 497, 572), and neither the imports (lines 1-24) nor the
script-level variables bind it.  Name resolution therefore raises
`NameError` before `to_sql_optimized` (line 1243) can run; the
per-file handler (lines 1262-1264) swallows the exception and moves
on. -/

/-- Every function defined at the top level of the module. -/
def moduleFunctionNames : List String :=
  ["thread_safe_print", "check_diff", "download_file_with_progress",
    "download_files_parallel", "makedirs", "to_sql", "to_sql_optimized",
    "insert_with_error_handling", "parallel_insert", "reconnect_database",
    "test_database_connection", "load_env_config"]

/-- Global-name lookup as performed when the part loop reaches a call:
defined names resolve, anything else raises `NameError`. -/
def callGlobal (name : String) : Except String Unit :=
  if name ∈ moduleFunctionNames then .ok ()
  else .error ("NameError: name " ++ name ++ " is not defined")

/-- One windowed part of a simples file (source lines 1234-1244): the
cleaning call of line 1236 must resolve before the insert of line 1243
can contribute any rows; on success the part could insert at most all
its rows. -/
def processSimplesPart (part : List α) : Except String Nat :=
  match callGlobal "clean_dataframe_for_insert" with
  | .error e => .error e
  | .ok _ =>
    match callGlobal "to_sql_optimized" with
    | .error e => .error e
    | .ok _ => .ok part.length

/-- A whole simples file (the `try` of lines 1198-1261): parts are
processed in order; the first exception aborts the remaining parts and
is swallowed by the per-file `except` (lines 1262-1264); the result is
the number of rows inserted into the simples table for this file. -/
def processSimplesFile : List (List α) → Nat
  | [] => 0
  | p :: ps =>
    match processSimplesPart p with
    | .error _ => 0
    | .ok n => n + processSimplesFile ps

/-- C6: `clean_dataframe_for_insert` is defined nowhere in the module,
so every simples part raises `NameError` at the cleaning call, before
any insertion; the per-file handler swallows it, and zero rows are ever
inserted into the simples table. -/
theorem simples_loader_never_inserts (parts : List (List α)) :
    ("clean_dataframe_for_insert" ∉ moduleFunctionNames)
    ∧ (∀ p : List α, processSimplesPart p
        = .error "NameError: name clean_dataframe_for_insert is not defined")
    ∧ processSimplesFile parts = 0 := by
  refine ⟨by decide, fun p => rfl, ?_⟩
  cases parts with
  | nil => rfl
  | cons p ps => rfl

/-! ### Per-kind file assignment (source lines 861-895)

`Items = [name for name in os.listdir(extracted_files) ...]` takes the
directory listing in whatever order the OS returns it — no sort is
applied to it anywhere — and the `elif` chain of lines 875-895 appends
each item to the list of the first kind whose token occurs in the
name. -/

/-- The ten entity kinds of the per-kind processing blocks. -/
inductive Kind where
  | empresa
  | estabelecimento
  | socios
  | simples
  | cnae
  | moti
  | munic
  | natju
  | pais
  | quals
deriving DecidableEq, Repr

def strContainsAux (needle : List Char) : List Char → Bool
  | [] => needle.isEmpty
  | c :: rest => needle.isPrefixOf (c :: rest) || strContainsAux needle rest

/-- Python's `'EMPRE' in item` substring test. -/
def strContains (hay needle : String) : Bool :=
  strContainsAux needle.data hay.data

/-- The `elif` chain of lines 875-895: the first matching token
wins. -/
def classify (item : String) : Option Kind :=
  if strContains item "EMPRE" then some .empresa
  else if strContains item "ESTABELE" then some .estabelecimento
  else if strContains item "SOCIO" then some .socios
  else if strContains item "SIMPLES" then some .simples
  else if strContains item "CNAE" then some .cnae
  else if strContains item "MOTI" then some .moti
  else if strContains item "MUNIC" then some .munic
  else if strContains item "NATJU" then some .natju
  else if strContains item "PAIS" then some .pais
  else if strContains item "QUALS" then some .quals
  else none

/-- The file list handed to kind `k`'s processing loop: the single pass
over `Items` appends matching names in listing order. -/
def kindFiles (k : Kind) (items : List String) : List String :=
  items.filter (fun it => classify it == some k)

/-- Lexicographic comparison on character lists (the order file names
would be sorted by). -/
def charListLe : List Char → List Char → Bool
  | [], _ => true
  | _ :: _, [] => false
  | a :: as, b :: bs =>
    if a < b then true
    else if b < a then false
    else charListLe as bs

def insertSortedStr (x : String) : List String → List String
  | [] => [x]
  | y :: ys =>
    if charListLe x.data y.data then x :: y :: ys
    else y :: insertSortedStr x ys

def insertionSortStr : List String → List String
  | [] => []
  | x :: xs => insertSortedStr x (insertionSortStr xs)

/-- Modelled from the spec's words, for the comparison demanded by
claim C7 only: the sorted sequence of the extracted files matching the
kind's name predicate. -/
def specSortedKindFiles (k : Kind) (items : List String) : List String :=
  insertionSortStr (kindFiles k items)

/-- C7 counterexample: no sort is applied to the directory listing.
For the listing `["K3312.EMPRECSV", "K3311.EMPRECSV"]` the empresa
loop receives the files in listing order, which differs from the
sorted sequence of the files matching the kind's predicate, refuting
the claim that the processed sequence is the sorted sequence. -/
theorem kind_files_not_sorted_cex :
    kindFiles .empresa ["K3312.EMPRECSV", "K3311.EMPRECSV"]
        = ["K3312.EMPRECSV", "K3311.EMPRECSV"]
    ∧ specSortedKindFiles .empresa ["K3312.EMPRECSV", "K3311.EMPRECSV"]
        = ["K3311.EMPRECSV", "K3312.EMPRECSV"]
    ∧ kindFiles .empresa ["K3312.EMPRECSV", "K3311.EMPRECSV"]
        ≠ specSortedKindFiles .empresa ["K3312.EMPRECSV", "K3311.EMPRECSV"] := by
  refine ⟨rfl, rfl, by decide⟩

/-- C7 (amended): within one entity kind the files are handed to the
processing loop in directory-listing order filtered by the kind's name
predicate: the processed sequence is a subsequence of the listing
(relative listing order preserved, no sorting applied) and contains
exactly the listed items the kind's predicate matches; it is therefore
deterministic only insofar as the directory listing order is. -/
theorem kind_files_listing_order (k : Kind) (items : List String) :
    (kindFiles k items).Sublist items
    ∧ (∀ it, it ∈ kindFiles k items ↔ it ∈ items ∧ classify it = some k) := by
  constructor
  · exact List.filter_sublist items
  · intro it
    simp [kindFiles, List.mem_filter]

end ETL
